import Mathlib

/-!
Shallow embedding of the MCP context manager, model dispatcher and HTTP
handlers of the SAP-MMPUR-MCP repository, together with proofs about the
specification's claims.

The source of truth is the JavaScript code:
  * `mcpContextManager.js` — create/get/update/delete/cleanup of contexts;
  * `mcpModels.js` — provider registry and the pre-network phase of
    `query`/`generate`;
  * `mcpServer.js` — the HTTP handlers (`PUT /api/context/:id`,
    `POST /api/query`, `POST /api/generate`);
  * `mcpConfig.js` — the reference configuration (defaults).

Modelling conventions:
  * JS numbers are `Int` (all values the claims touch are integers);
    timestamps (`Date.now()`) are an explicit `now : Int` parameter.
  * The in-memory `Map` of contexts is an association list in insertion
    order; `Map.get`/`Map.set`/`Map.delete` are `storeGet`/`storeSet`/
    `storeDelete`.
  * JS in-place mutation of a context object that is also held by the map
    is modelled by writing the updated record back into the store at the
    point of mutation.
  * Optional / possibly-falsy inputs are `Option`; where JS only tests
    truthiness of a string or number, `none` also stands for the falsy
    values of that type (noted at each place).
-/

namespace SapMmpurMcp

/-- A JSON value, the payload type of message contents. -/
inductive Json where
  | null
  | bool (b : Bool)
  | num (n : Int)
  | str (s : String)
  | arr (elems : List Json)
  | obj (fields : List (String × Json))

/-- One character of `JSON.stringify` string escaping. -/
def jsonEscapeChar (c : Char) : String :=
  if c = '"' then "\\\""
  else if c = '\\' then "\\\\"
  else if c = '\n' then "\\n"
  else if c = '\t' then "\\t"
  else if c = '\r' then "\\r"
  else String.singleton c

/-- `JSON.stringify` escaping of a string body. -/
def jsonEscape (s : String) : String :=
  String.join (s.toList.map jsonEscapeChar)

mutual

/-- `JSON.stringify` of a JSON value. -/
def Json.stringify : Json → String
  | Json.null => "null"
  | Json.bool b => if b then "true" else "false"
  | Json.num n => toString n
  | Json.str s => "\"" ++ jsonEscape s ++ "\""
  | Json.arr elems => "[" ++ stringifyElems elems ++ "]"
  | Json.obj fields => "\x7b" ++ stringifyFields fields ++ "\x7d"

/-- Comma-separated serialization of array elements. -/
def stringifyElems : List Json → String
  | [] => ""
  | [j] => Json.stringify j
  | j :: rest => Json.stringify j ++ "," ++ stringifyElems rest

/-- Comma-separated serialization of object fields. -/
def stringifyFields : List (String × Json) → String
  | [] => ""
  | [(k, v)] => "\"" ++ jsonEscape k ++ "\":" ++ Json.stringify v
  | (k, v) :: rest =>
      "\"" ++ jsonEscape k ++ "\":" ++ Json.stringify v ++ "," ++ stringifyFields rest

end

/-- JS truthiness of a JSON value. -/
def truthyJson : Json → Bool
  | Json.null => false
  | Json.bool b => b
  | Json.num n => n != 0
  | Json.str s => s != ""
  | Json.arr _ => true
  | Json.obj _ => true

/-- JS truthiness of a possibly absent JSON value (`undefined` is falsy). -/
def truthyOpt : Option Json → Bool
  | none => false
  | some j => truthyJson j

/-- One message entry of a context: a `\x7brole, content\x7d` object.
`role` is never read by the manager; `content` feeds the token estimator. -/
structure Entry where
  role : Json
  content : Json

/-- The text whose length the estimator measures, from
`typeof item.content === 'string' ? item.content : JSON.stringify(item.content)`. -/
def contentStr (item : Entry) : String :=
  match item.content with
  | Json.str s => s
  | j => Json.stringify j

/-- Per-entry size estimate, from `Math.ceil(contentStr.length / 4)`. -/
def estimateSize (item : Entry) : Nat :=
  (contentStr item).length |> fun len => (len + 3) / 4

/-- The fields of `mcpConfig.context` that the manager reads. -/
structure ContextConfig where
  maxTokens : Int
  ttlMs : Int
  cleanupIntervalMs : Int

/-- The reference configuration (`mcpConfig.js` defaults): budget 8192,
TTL one hour, sweep every five minutes. -/
def refContextConfig : ContextConfig :=
  { maxTokens := 8192, ttlMs := 3600000, cleanupIntervalMs := 300000 }

/-- One stored context record. -/
structure Context where
  id : String
  model : String
  maxTokens : Int
  createdAt : Int
  updatedAt : Int
  expiresAt : Int
  tokenCount : Int
  contents : List Entry

/-- The manager's `Map` of contexts, in insertion order. -/
abbrev Store := List (String × Context)

/-- `Map.get`. -/
def storeGet : Store → String → Option Context
  | [], _ => none
  | (k, v) :: rest, contextId => if k = contextId then some v else storeGet rest contextId

/-- `Map.set`: replace in place if the key exists, append otherwise. -/
def storeSet : Store → String → Context → Store
  | [], contextId, c => [(contextId, c)]
  | (k, v) :: rest, contextId, c =>
      if k = contextId then (k, c) :: rest else (k, v) :: storeSet rest contextId c

/-- `Map.has`. -/
def storeHas (s : Store) (contextId : String) : Bool :=
  (storeGet s contextId).isSome

/-- `Map.delete`. -/
def storeDelete : Store → String → Store
  | [], _ => []
  | (k, v) :: rest, contextId =>
      if k = contextId then rest else (k, v) :: storeDelete rest contextId

/-- JS `x || d` for an optional number: absent, `null` and `0` are falsy
and fall back to the default; every other number (negatives included) is
truthy and kept. -/
def jsNumOr (x : Option Int) (d : Int) : Int :=
  match x with
  | none => d
  | some v => if v = 0 then d else v

/-- `McpContextManager.createContext`: builds the record (note
`tokenCount: 0` regardless of the supplied initial contents) and stores it.
The fresh `crypto.randomUUID()` is the `contextId` parameter. -/
def createContext (cfg : ContextConfig) (s : Store) (now : Int) (contextId : String)
    (model : String) (maxTokens : Option Int) (contents : Option (List Entry)) :
    Context × Store :=
  let context : Context :=
    { id := contextId
      model := model
      maxTokens := jsNumOr maxTokens cfg.maxTokens
      createdAt := now
      updatedAt := now
      expiresAt := now + cfg.ttlMs
      tokenCount := 0
      contents := contents.getD [] }
  (context, storeSet s contextId context)

/-- `McpContextManager.getContext`: returns `null` only when the id is
absent from the map; otherwise slides `expiresAt` and `updatedAt` forward
on the stored record and returns it. No expiry check is performed. -/
def getContext (cfg : ContextConfig) (s : Store) (now : Int) (contextId : String) :
    Option Context × Store :=
  match storeGet s contextId with
  | none => (none, s)
  | some context =>
      let slid := { context with expiresAt := now + cfg.ttlMs, updatedAt := now }
      (some slid, storeSet s contextId slid)

/-- The `switch (operation)` of `McpContextManager.updateContext`:
`some` is the new contents, `none` means the `default:` branch (throw). -/
def applyOperation (operation : Json) (contents : List Entry) (content : Entry) :
    Option (List Entry) :=
  match operation with
  | Json.str s =>
      if s = "append" then some (contents ++ [content])
      else if s = "replace" then some [content]
      else if s = "clear" then some []
      else none
  | _ => none

/-- `contents.reduce((count, item) => count + Math.ceil(contentStr.length / 4), 0)`. -/
def sumEstimates (contents : List Entry) : Int :=
  contents.foldl (fun count item => count + (estimateSize item : Int)) 0

/-- The eviction `while` loop: while the running count exceeds the budget
and entries remain, `shift()` the oldest entry and subtract its estimate. -/
def evictLoop (maxTokens : Int) : List Entry → Int → List Entry × Int
  | [], tokenCount => ([], tokenCount)
  | removed :: rest, tokenCount =>
      if tokenCount > maxTokens then
        evictLoop maxTokens rest (tokenCount - (estimateSize removed : Int))
      else (removed :: rest, tokenCount)

/-- Recompute the token count and run the guarded eviction loop
(`if (context.tokenCount > context.maxTokens) \x7b while ... \x7d`). -/
def runEviction (maxTokens : Int) (contents : List Entry) : List Entry × Int :=
  if sumEstimates contents > maxTokens then
    evictLoop maxTokens contents (sumEstimates contents)
  else (contents, sumEstimates contents)

/-- Result of `McpContextManager.updateContext`: `null`, the updated
record, or the thrown unknown-operation error. -/
inductive UpdateResult where
  | notFound
  | updated (context : Context)
  | unknownOperation (message : String)

/-- `McpContextManager.updateContext`. It first calls `getContext` (which
already slides the stored record's timestamps), then applies the
operation, recomputes the token count, evicts, stamps the timestamps and
stores the record. The unknown-operation throw happens after the
`getContext` side effect, so the slid record stays in the store. -/
def updateContext (cfg : ContextConfig) (s : Store) (now : Int) (contextId : String)
    (operation : Json) (content : Entry) : UpdateResult × Store :=
  match getContext cfg s now contextId with
  | (none, s₁) => (UpdateResult.notFound, s₁)
  | (some context, s₁) =>
      match applyOperation operation context.contents content with
      | none => (UpdateResult.unknownOperation "Unknown context operation", s₁)
      | some contents₁ =>
          let ev := runEviction context.maxTokens contents₁
          let context₂ := { context with
            contents := ev.1
            tokenCount := ev.2
            updatedAt := now
            expiresAt := now + cfg.ttlMs }
          (UpdateResult.updated context₂, storeSet s₁ contextId context₂)

/-- `McpContextManager.deleteContext`. -/
def deleteContext (s : Store) (contextId : String) : Bool × Store :=
  if storeHas s contextId then (true, storeDelete s contextId) else (false, s)

/-- `McpContextManager.cleanupExpiredContexts`: the sweep removes exactly
the records with `expiresAt < now` (strict comparison in the source). -/
def cleanupExpiredContexts (s : Store) (now : Int) : Store :=
  s.filter (fun kv => !(decide (kv.2.expiresAt < now)))

/-- One provider of the `McpModels` registry (`name`, `baseUrl`,
`apiKey`, `supportedModels`), loaded from `mcpConfig.models.providers`. -/
structure Provider where
  name : String
  baseUrl : String
  apiKey : Option String
  supportedModels : List String

/-- The reference provider registry, from the model lists hardcoded in
`mcpConfig.js` (iteration order openai, anthropic, ollama as in the
`this.providers` object literal). -/
def refProviders : List Provider :=
  [ { name := "openai", baseUrl := "https://api.openai.com/v1", apiKey := none,
      supportedModels :=
        ["gpt-3.5-turbo", "gpt-3.5-turbo-16k", "gpt-4", "gpt-4-vision", "gpt-4-turbo"] },
    { name := "anthropic", baseUrl := "https://api.anthropic.com/v1", apiKey := none,
      supportedModels :=
        ["claude-3-opus-20240229", "claude-3-sonnet-20240229",
         "claude-3-haiku-20240307", "claude-2.1"] },
    { name := "ollama", baseUrl := "http://localhost:11434", apiKey := none,
      supportedModels := ["llama2", "mistral", "codellama", "phi"] } ]

/-- `mcpConfig.models.defaultModel`. -/
def defaultModel : String := "gpt-3.5-turbo"

/-- `McpModels.getProviderForModel`: scan providers in registration order,
return the first whose `supportedModels` includes the model, else throw
`No provider found for model ...`. -/
def getProviderForModel : List Provider → String → Except String Provider
  | [], modelId => Except.error ("No provider found for model " ++ modelId)
  | p :: ps, modelId =>
      if modelId ∈ p.supportedModels then Except.ok p
      else getProviderForModel ps modelId

/-- The errors `McpModels.query`/`McpModels.generate` can throw before any
provider network call. -/
inductive McpError where
  | contextNotFound (contextId : String)
  | noProvider (modelId : String)
  | validation
deriving DecidableEq

/-- Pre-network outcome of `McpModels.query`/`McpModels.generate`: either
an error thrown before any provider call, or the provider call that would
be issued (provider name and outbound message list). -/
inductive GenPrep where
  | failed (e : McpError)
  | providerCall (providerName : String) (messages : List Entry)

/-- The `\x7brole: 'user', content\x7d` entry pushed for a query/prompt. -/
def userEntry (text : String) : Entry :=
  { role := Json.str "user", content := Json.str text }

/-- The shared context-lookup prologue of `query`/`generate`: when a
`contextId` is given, `getContext` must return a record or the call throws
`Context ... not found`. `none` for `contextId` also covers the falsy
string values JS would skip the lookup for. -/
def lookupContext (cfg : ContextConfig) (s : Store) (now : Int)
    (contextId : Option String) : Except McpError (Option Context) × Store :=
  match contextId with
  | none => (Except.ok none, s)
  | some cid =>
      match getContext cfg s now cid with
      | (none, s₁) => (Except.error (McpError.contextNotFound cid), s₁)
      | (some c, s₁) => (Except.ok (some c), s₁)

/-- `if (context && context.contents.length > 0) messages.push(...context.contents)`. -/
def contextMessages (context : Option Context) : List Entry :=
  match context with
  | some c => if c.contents.length > 0 then c.contents else []
  | none => []

/-- `McpModels.generate` up to (but not including) the provider switch:
context lookup, provider resolution, message building and the
prompt-or-nonempty-context validation, in source order. `none` for
`prompt` also covers the falsy empty string. -/
def generatePrep (cfg : ContextConfig) (providers : List Provider) (s : Store)
    (now : Int) (contextId : Option String) (prompt : Option String)
    (model : String) : GenPrep × Store :=
  match lookupContext cfg s now contextId with
  | (Except.error e, s₁) => (GenPrep.failed e, s₁)
  | (Except.ok context, s₁) =>
      match getProviderForModel providers model with
      | Except.error _ => (GenPrep.failed (McpError.noProvider model), s₁)
      | Except.ok provider =>
          let messages := contextMessages context
          match prompt with
          | some p => (GenPrep.providerCall provider.name (messages ++ [userEntry p]), s₁)
          | none =>
              match context with
              | none => (GenPrep.failed McpError.validation, s₁)
              | some c =>
                  if c.contents.length = 0 then (GenPrep.failed McpError.validation, s₁)
                  else (GenPrep.providerCall provider.name messages, s₁)

/-- `McpModels.query` up to the provider switch: context lookup, provider
resolution, then the context messages followed by one user entry. -/
def queryPrep (cfg : ContextConfig) (providers : List Provider) (s : Store)
    (now : Int) (contextId : Option String) (queryText : String)
    (model : String) : GenPrep × Store :=
  match lookupContext cfg s now contextId with
  | (Except.error e, s₁) => (GenPrep.failed e, s₁)
  | (Except.ok context, s₁) =>
      match getProviderForModel providers model with
      | Except.error _ => (GenPrep.failed (McpError.noProvider model), s₁)
      | Except.ok provider =>
          (GenPrep.providerCall provider.name
            (contextMessages context ++ [userEntry queryText]), s₁)

/-! ## HTTP layer (`mcpServer.js`) -/

/-- Response of the `PUT /api/context/:contextId` handler:
`badRequest` is `400 \x7bstatus: 'error'\x7d`, `okEnvelope c?` is
`200 \x7bstatus: 'success', context: c?\x7d` (with `none` rendered as the
JSON `null`), `serverError` is the catch-all `500 \x7bstatus: 'error'\x7d`. -/
inductive PutHttpResult where
  | badRequest
  | okEnvelope (context : Option Context)
  | serverError

/-- The `(statusCode, status)` pair of each PUT response shape. -/
def putEnvelope : PutHttpResult → Nat × String
  | PutHttpResult.badRequest => (400, "error")
  | PutHttpResult.okEnvelope _ => (200, "success")
  | PutHttpResult.serverError => (500, "error")

/-- `McpServer.updateContext` (the `PUT /api/context/:contextId` handler).
Gate: `if (!operation || !content) return 400`. `content` is modelled as
an optional entry object (an object is always truthy; the falsy primitive
payloads `''`, `0`, `null`, `false` behave exactly like an absent field at
this gate and are modelled by `none`). When the gate passes, the store
manager runs; note the missing null-check on its result — a not-found id
yields `200 success` with a `null` context. The returned `Bool` records
whether the store manager was invoked. -/
def serverUpdateContext (cfg : ContextConfig) (s : Store) (now : Int)
    (contextId : String) (operation : Option Json) (content : Option Entry) :
    PutHttpResult × Store × Bool :=
  match operation, content with
  | some op, some entry =>
      if truthyJson op then
        match updateContext cfg s now contextId op entry with
        | (UpdateResult.notFound, s₁) => (PutHttpResult.okEnvelope none, s₁, true)
        | (UpdateResult.updated c, s₁) => (PutHttpResult.okEnvelope (some c), s₁, true)
        | (UpdateResult.unknownOperation _, s₁) => (PutHttpResult.serverError, s₁, true)
      else (PutHttpResult.badRequest, s, false)
  | _, _ => (PutHttpResult.badRequest, s, false)

/-- The SAP keyword vocabulary of `McpSapAdapter.isSapQuery`. -/
def sapKeywords : List String :=
  ["purchase order", "PO", "vendor", "supplier", "material", "SAP",
   "goods receipt", "invoice", "procurement", "MMPUR"]

/-- Does `needle` start `hay`? -/
def charsStart : List Char → List Char → Bool
  | _, [] => true
  | [], _ :: _ => false
  | c :: cs, d :: ds => c == d && charsStart cs ds

/-- Does `needle` occur contiguously inside `hay`? -/
def charsSub (needle : List Char) : List Char → Bool
  | [] => charsStart [] needle
  | c :: rest => charsStart (c :: rest) needle || charsSub needle rest

/-- JS `s.includes(sub)`. -/
def jsIncludes (s sub : String) : Bool := charsSub sub.toList s.toList

/-- JS `s.toLowerCase()` (ASCII case folding, character by character). -/
def jsToLower (s : String) : String := String.mk (s.toList.map Char.toLower)

/-- `McpSapAdapter.isSapQuery`: case-insensitive substring match against
the keyword vocabulary. -/
def isSapQuery (query : String) : Bool :=
  sapKeywords.any (fun keyword => jsIncludes (jsToLower query) (jsToLower keyword))

/-- Outcome of the `POST /api/query` handler, up to the external calls:
`badRequest` is `400 \x7bstatus: 'error'\x7d` (missing query),
`sapAdapterCall` hands off to the external SAP adapter, `errorResponse`
is the catch-all `500 \x7bstatus: 'error'\x7d`, and `providerCall` is the
outbound LLM network call. -/
inductive QueryHttpOutcome where
  | badRequest
  | sapAdapterCall
  | errorResponse
  | providerCall (providerName : String) (messages : List Entry)

/-- The `(statusCode, status)` pair of each query response the handler
sends before any external call. -/
def queryEnvelope : QueryHttpOutcome → Option (Nat × String)
  | QueryHttpOutcome.badRequest => some (400, "error")
  | QueryHttpOutcome.errorResponse => some (500, "error")
  | _ => none

/-- `McpServer.handleQuery` up to the external calls: missing (falsy)
query is a 400; a SAP-classified query goes to the adapter; otherwise
`McpModels.query` runs and any error it throws (context not found
included) is caught and answered with a 500 error envelope. -/
def handleQuery (cfg : ContextConfig) (providers : List Provider) (s : Store)
    (now : Int) (contextId : Option String) (query : Option String)
    (model : Option String) : QueryHttpOutcome × Store :=
  match query with
  | none => (QueryHttpOutcome.badRequest, s)
  | some q =>
      if isSapQuery q then (QueryHttpOutcome.sapAdapterCall, s)
      else
        match queryPrep cfg providers s now contextId q (model.getD defaultModel) with
        | (GenPrep.failed _, s₁) => (QueryHttpOutcome.errorResponse, s₁)
        | (GenPrep.providerCall p msgs, s₁) => (QueryHttpOutcome.providerCall p msgs, s₁)

/-- Outcome of the `POST /api/generate` handler, up to the provider call. -/
inductive GenHttpOutcome where
  | badRequest
  | errorResponse
  | providerCall (providerName : String) (messages : List Entry)

/-- `McpServer.handleGeneration` up to the provider call: `400` when both
`prompt` and `contextId` are falsy, otherwise `McpModels.generate` runs
and a thrown error is caught and answered with a 500 error envelope. -/
def handleGeneration (cfg : ContextConfig) (providers : List Provider) (s : Store)
    (now : Int) (contextId : Option String) (prompt : Option String)
    (model : Option String) : GenHttpOutcome × Store :=
  match prompt, contextId with
  | none, none => (GenHttpOutcome.badRequest, s)
  | _, _ =>
      match generatePrep cfg providers s now contextId prompt (model.getD defaultModel) with
      | (GenPrep.failed _, s₁) => (GenHttpOutcome.errorResponse, s₁)
      | (GenPrep.providerCall p msgs, s₁) => (GenHttpOutcome.providerCall p msgs, s₁)

/-- `McpServer.createContext` (the `POST /api/context` handler): missing
(falsy) `model` is a 400 without touching the store; otherwise the handler
itself applies `maxTokens || mcpConfig.context.maxTokens` and
`contents || []` before calling the manager. -/
def serverCreateContext (cfg : ContextConfig) (s : Store) (now : Int)
    (contextId : String) (model : Option String) (maxTokens : Option Int)
    (contents : Option (List Entry)) : Option (Context × Store) :=
  match model with
  | none => none
  | some m =>
      some (createContext cfg s now contextId m (some (jsNumOr maxTokens cfg.maxTokens))
        (some (contents.getD [])))

/-! ## Concrete sample data for the check theorems -/

/-- A 4-character string entry; its size estimate is 1. -/
def entryA : Entry := { role := Json.str "user", content := Json.str "aaaa" }

/-- An 8-character string entry; its size estimate is 2. -/
def bigEntry : Entry := { role := Json.str "user", content := Json.str "aaaaaaaa" }

/-- A 32-character string entry; its size estimate is 8. -/
def bigEntry2 : Entry :=
  { role := Json.str "user", content := Json.str "aaaaaaaaaaaaaaaaaaaaaaaaaaaaaaaa" }

/-- An empty context whose token budget is 1. -/
def ctxBudget1 : Context :=
  { id := "c", model := "m", maxTokens := 1, createdAt := 0, updatedAt := 0,
    expiresAt := 3600000, tokenCount := 0, contents := [] }

/-- A context with budget 3 holding one size-1 entry. -/
def ctxBudget3 : Context :=
  { id := "c", model := "m", maxTokens := 3, createdAt := 0, updatedAt := 0,
    expiresAt := 3600000, tokenCount := 1, contents := [entryA] }

/-- An empty context with the default budget 8192. -/
def ctxDefault : Context :=
  { id := "c", model := "m", maxTokens := 8192, createdAt := 0, updatedAt := 0,
    expiresAt := 3600000, tokenCount := 0, contents := [] }

/-- The result of appending `entryA` to `ctxDefault` at time 0. -/
def ctxAfterAppend : Context :=
  { id := "c", model := "m", maxTokens := 8192, createdAt := 0, updatedAt := 0,
    expiresAt := 3600000, tokenCount := 1, contents := [entryA] }

/-- A context whose `expiresAt` has already passed at time 100. -/
def ctxExpired : Context :=
  { id := "c1", model := "m", maxTokens := 8192, createdAt := 0, updatedAt := 0,
    expiresAt := 0, tokenCount := 0, contents := [] }

/-- A context last touched at time 0 that expires at time 5. -/
def ctxStale : Context :=
  { id := "c", model := "m", maxTokens := 8192, createdAt := 0, updatedAt := 0,
    expiresAt := 5, tokenCount := 1, contents := [entryA] }

/-- Projection: the contents of a successful update result. -/
def updatedContents : UpdateResult → Option (List Entry)
  | UpdateResult.updated c => some c.contents
  | _ => none

/-- Projection: did the update throw the unknown-operation error? -/
def isUnknownOperation : UpdateResult → Bool
  | UpdateResult.unknownOperation _ => true
  | _ => false

/-! ## Lemmas about the estimator, the evictor and the store -/

theorem sumEstimates_foldl (l : List Entry) : ∀ init : Int,
    l.foldl (fun count item => count + (estimateSize item : Int)) init
      = init + sumEstimates l := by
  induction l with
  | nil => intro init; simp [sumEstimates]
  | cons e t ih =>
      intro init
      simp only [sumEstimates, List.foldl_cons]
      rw [ih, ih]
      ring

theorem sumEstimates_cons (e : Entry) (t : List Entry) :
    sumEstimates (e :: t) = (estimateSize e : Int) + sumEstimates t := by
  have h : sumEstimates (e :: t)
      = List.foldl (fun count item => count + (estimateSize item : Int))
          (0 + (estimateSize e : Int)) t := rfl
  rw [h, sumEstimates_foldl]
  ring

theorem sumEstimates_nonneg (l : List Entry) : 0 ≤ sumEstimates l := by
  induction l with
  | nil => simp [sumEstimates]
  | cons e t ih =>
      rw [sumEstimates_cons]
      exact add_nonneg (Int.natCast_nonneg _) ih

/-- The eviction loop keeps the running count equal to the estimate sum of
the surviving entries, removes only a prefix (the survivors are a suffix),
and — when the budget is nonnegative — ends within budget. -/
theorem evictLoop_spec (maxT : Int) :
    ∀ (l : List Entry) (tc : Int), tc = sumEstimates l →
      (evictLoop maxT l tc).2 = sumEstimates (evictLoop maxT l tc).1
      ∧ (evictLoop maxT l tc).1 <:+ l
      ∧ (0 ≤ maxT → (evictLoop maxT l tc).2 ≤ maxT) := by
  intro l
  induction l with
  | nil =>
      intro tc htc
      refine ⟨htc, List.suffix_rfl, ?_⟩
      intro h0
      have h1 : tc = 0 := by simpa [sumEstimates] using htc
      show tc ≤ maxT
      omega
  | cons e t ih =>
      intro tc htc
      by_cases hgt : tc > maxT
      · have heq : evictLoop maxT (e :: t) tc
            = evictLoop maxT t (tc - (estimateSize e : Int)) := by
          simp [evictLoop, hgt]
        have ht : tc - (estimateSize e : Int) = sumEstimates t := by
          rw [htc, sumEstimates_cons]; ring
        have hrec := ih (tc - (estimateSize e : Int)) ht
        rw [heq]
        exact ⟨hrec.1, hrec.2.1.trans ⟨[e], rfl⟩, hrec.2.2⟩
      · have heq : evictLoop maxT (e :: t) tc = (e :: t, tc) := by
          simp [evictLoop, hgt]
        rw [heq]
        exact ⟨htc, List.suffix_rfl, fun _ => not_lt.mp hgt⟩

/-- Same statement for the guarded eviction entry point. -/
theorem runEviction_spec (maxT : Int) (contents : List Entry) :
    (runEviction maxT contents).2 = sumEstimates (runEviction maxT contents).1
    ∧ (runEviction maxT contents).1 <:+ contents
    ∧ (0 ≤ maxT → (runEviction maxT contents).2 ≤ maxT) := by
  unfold runEviction
  by_cases hgt : sumEstimates contents > maxT
  · simpa [hgt] using evictLoop_spec maxT contents (sumEstimates contents) rfl
  · rw [if_neg hgt]
    exact ⟨rfl, List.suffix_rfl, fun _ => not_lt.mp hgt⟩

theorem storeGet_storeSet (s : Store) (contextId : String) (c : Context) :
    storeGet (storeSet s contextId c) contextId = some c := by
  induction s with
  | nil => simp [storeSet, storeGet]
  | cons kv rest ih =>
      obtain ⟨k, v⟩ := kv
      by_cases hk : k = contextId
      · simp [storeSet, storeGet, hk]
      · simp [storeSet, storeGet, hk, ih]

theorem getContext_none (cfg : ContextConfig) (s : Store) (now : Int)
    (contextId : String) (hfind : storeGet s contextId = none) :
    getContext cfg s now contextId = (none, s) := by
  unfold getContext
  rw [hfind]

theorem getContext_some (cfg : ContextConfig) (s : Store) (now : Int)
    (contextId : String) (c : Context) (hfind : storeGet s contextId = some c) :
    getContext cfg s now contextId
      = (some { c with expiresAt := now + cfg.ttlMs, updatedAt := now },
         storeSet s contextId { c with expiresAt := now + cfg.ttlMs, updatedAt := now }) := by
  unfold getContext
  rw [hfind]

/-- The `default:` branch of the operation switch: any operation that is
not the string `append`, `replace` or `clear` is unknown. -/
theorem applyOperation_unknown (operation : Json) (contents : List Entry) (content : Entry)
    (hop : ∀ str, operation = Json.str str →
      str ≠ "append" ∧ str ≠ "replace" ∧ str ≠ "clear") :
    applyOperation operation contents content = none := by
  cases operation with
  | str s =>
      obtain ⟨h1, h2, h3⟩ := hop s rfl
      simp [applyOperation, h1, h2, h3]
  | null => rfl
  | bool b => rfl
  | num n => rfl
  | arr l => rfl
  | obj f => rfl

/-- Inversion of a successful `updateContext`: it found a record, the
operation was known, and the result is the slid record with the
post-eviction contents and token count. -/
theorem updateContext_updated_inv (cfg : ContextConfig) (s : Store) (now : Int)
    (contextId : String) (operation : Json) (content : Entry) (c2 : Context) (s2 : Store)
    (h : updateContext cfg s now contextId operation content
          = (UpdateResult.updated c2, s2)) :
    ∃ c contents1,
      storeGet s contextId = some c
      ∧ applyOperation operation c.contents content = some contents1
      ∧ c2 = { c with
          contents := (runEviction c.maxTokens contents1).1,
          tokenCount := (runEviction c.maxTokens contents1).2,
          updatedAt := now, expiresAt := now + cfg.ttlMs } := by
  unfold updateContext at h
  cases hfind : storeGet s contextId with
  | none =>
      rw [getContext_none cfg s now contextId hfind] at h
      simp at h
  | some c =>
      rw [getContext_some cfg s now contextId c hfind] at h
      cases hop : applyOperation operation c.contents content with
      | none =>
          dsimp only at h
          rw [hop] at h
          simp at h
      | some contents1 =>
          dsimp only at h
          rw [hop] at h
          simp only [Prod.mk.injEq, UpdateResult.updated.injEq] at h
          exact ⟨c, contents1, rfl, hop, h.1.symm⟩

/-! ## Claim C1 -/

/-- C1 counterexample: the claimed single-oversized-entry exception does
not hold. Appending one entry of size 2 to an empty context with budget 1
leaves the context empty — the lone oversized entry is removed, not
retained. -/
theorem claim1_counterexample :
    (1 : Int) < (estimateSize bigEntry : Int)
    ∧ updatedContents (updateContext refContextConfig [("c", ctxBudget1)] 0 "c"
        (Json.str "append") bigEntry).1 = some [] :=
  ⟨by decide, rfl⟩

/-- C1 (amended): after every update operation that completes
(append/replace/clear), the sum of the per-entry size estimates over the
context's contents is at most the budget whenever the budget is
nonnegative — with no exception: an entry whose own estimate exceeds the
budget is itself evicted, leaving the contents empty. -/
theorem claim1_budget_invariant_amended (cfg : ContextConfig) (s : Store) (now : Int)
    (contextId : String) (operation : Json) (content : Entry) (c2 : Context) (s2 : Store)
    (h : updateContext cfg s now contextId operation content
          = (UpdateResult.updated c2, s2))
    (hB : 0 ≤ c2.maxTokens) :
    sumEstimates c2.contents ≤ c2.maxTokens := by
  obtain ⟨c, contents1, hfind, hop, hc2⟩ :=
    updateContext_updated_inv cfg s now contextId operation content c2 s2 h
  subst hc2
  have hs := runEviction_spec c.maxTokens contents1
  show sumEstimates (runEviction c.maxTokens contents1).1 ≤ c.maxTokens
  rw [← hs.1]
  exact hs.2.2 hB

/-- C1 witness: the amended invariant at a concrete append within budget. -/
theorem claim1_witness :
    (0 : Int) ≤ ctxAfterAppend.maxTokens
    ∧ sumEstimates ctxAfterAppend.contents ≤ ctxAfterAppend.maxTokens :=
  ⟨by decide,
   claim1_budget_invariant_amended refContextConfig [("c", ctxDefault)] 0 "c"
     (Json.str "append") entryA ctxAfterAppend [("c", ctxAfterAppend)] rfl (by decide)⟩

/-! ## Claim C2 -/

/-- C2 counterexample: a context whose `expiresAt` has already passed is
still returned by `getContext` — the read path never checks expiry. -/
theorem claim2_counterexample :
    ctxExpired.expiresAt ≤ 100
    ∧ ((getContext refContextConfig [("c1", ctxExpired)] 100 "c1").1).isSome = true :=
  ⟨by decide, rfl⟩

/-- C2 (amended): `getContext` returns the not-found signal exactly for
ids absent from the store; an expired-but-not-yet-swept context is
returned with its expiry slid forward. Expiry is enforced only by the
periodic sweep, after which every surviving record satisfies
`¬(expiresAt < now)`. -/
theorem claim2_get_ignores_expiry_amended (cfg : ContextConfig) (s : Store) (now : Int)
    (contextId : String) :
    (getContext cfg s now contextId).1
      = (storeGet s contextId).map
          (fun c => { c with expiresAt := now + cfg.ttlMs, updatedAt := now })
    ∧ (cleanupExpiredContexts s now).all
        (fun kv => !(decide (kv.2.expiresAt < now))) = true := by
  constructor
  · cases hfind : storeGet s contextId with
    | none =>
        rw [getContext_none cfg s now contextId hfind]
        rfl
    | some c =>
        rw [getContext_some cfg s now contextId c hfind]
        rfl
  · simp only [List.all_eq_true, cleanupExpiredContexts]
    intro kv hkv
    exact (List.mem_filter.mp hkv).2

/-! ## Claim C3 -/

/-- C3 counterexample: eviction does not always keep the newest entry.
Appending a size-8 entry to a budget-3 context holding a size-1 entry
empties the context: the removed entries are not a strict prefix and the
newest entry does not survive. -/
theorem claim3_counterexample :
    updatedContents (updateContext refContextConfig [("c", ctxBudget3)] 0 "c"
        (Json.str "append") bigEntry2).1 = some []
    ∧ sumEstimates (ctxBudget3.contents ++ [bigEntry2]) > ctxBudget3.maxTokens :=
  ⟨rfl, by decide⟩

/-- C3 (amended): after an append, the surviving contents are a
contiguous suffix of the pre-eviction sequence `e1..en` (so only a
prefix is removed and nothing is reordered), but that prefix may be the
whole sequence: the newest entry is removed too when even it alone keeps
the total above the budget, leaving the context empty. -/
theorem claim3_suffix_amended (cfg : ContextConfig) (s : Store) (now : Int)
    (contextId : String) (content : Entry) (c : Context) (c2 : Context) (s2 : Store)
    (hfind : storeGet s contextId = some c)
    (h : updateContext cfg s now contextId (Json.str "append") content
          = (UpdateResult.updated c2, s2)) :
    c2.contents <:+ (c.contents ++ [content]) := by
  obtain ⟨c3, contents1, hfind3, hop, hc2⟩ :=
    updateContext_updated_inv cfg s now contextId (Json.str "append") content c2 s2 h
  rw [hfind] at hfind3
  injection hfind3 with hc
  subst hc
  have happend : applyOperation (Json.str "append") c.contents content
      = some (c.contents ++ [content]) := by simp [applyOperation]
  rw [happend] at hop
  injection hop with hcont
  subst hcont
  subst hc2
  exact (runEviction_spec c.maxTokens (c.contents ++ [content])).2.1

/-- C3 witness: the amended suffix property at a concrete append. -/
theorem claim3_witness :
    ctxAfterAppend.contents <:+ (ctxDefault.contents ++ [entryA]) :=
  claim3_suffix_amended refContextConfig [("c", ctxDefault)] 0 "c" entryA ctxDefault
    ctxAfterAppend [("c", ctxAfterAppend)] rfl rfl

/-! ## Claim C4 -/

/-- C4 counterexample: creation does not compute the initial token
estimate. Creating a context with a nonempty initial contents stores
`tokenCount = 0` although the per-entry sum is 1. -/
theorem claim4_counterexample :
    (createContext refContextConfig [] 0 "c" "m" none (some [entryA])).1.tokenCount = 0
    ∧ sumEstimates [entryA] = 1
    ∧ (0 : Int) ≠ 1 :=
  ⟨rfl, rfl, by decide⟩

/-- C4 (amended): after every update operation the stored `tokenCount`
equals the sum of the per-entry estimate over `contents`; creation
however always stores `tokenCount = 0`, even when the caller supplies
nonempty initial contents. -/
theorem claim4_tokenCount_amended (cfg : ContextConfig) (s : Store) (now : Int)
    (contextId : String) (operation : Json) (content : Entry) (c2 : Context) (s2 : Store)
    (h : updateContext cfg s now contextId operation content
          = (UpdateResult.updated c2, s2)) :
    c2.tokenCount = sumEstimates c2.contents
    ∧ ∀ (s3 : Store) (id3 model3 : String) (maxTokens3 : Option Int)
        (contents3 : Option (List Entry)),
        (createContext cfg s3 now id3 model3 maxTokens3 contents3).1.tokenCount = 0 := by
  constructor
  · obtain ⟨c, contents1, hfind, hop, hc2⟩ :=
      updateContext_updated_inv cfg s now contextId operation content c2 s2 h
    subst hc2
    exact (runEviction_spec c.maxTokens contents1).1
  · intro s3 id3 model3 maxTokens3 contents3
    rfl

/-- C4 witness: the amended equality at a concrete append and create. -/
theorem claim4_witness :
    ctxAfterAppend.tokenCount = sumEstimates ctxAfterAppend.contents
    ∧ (createContext refContextConfig [] 0 "cid" "m" none none).1.tokenCount = 0 :=
  ⟨(claim4_tokenCount_amended refContextConfig [("c", ctxDefault)] 0 "c"
      (Json.str "append") entryA ctxAfterAppend [("c", ctxAfterAppend)] rfl).1,
   (claim4_tokenCount_amended refContextConfig [("c", ctxDefault)] 0 "c"
      (Json.str "append") entryA ctxAfterAppend [("c", ctxAfterAppend)] rfl).2
     [] "cid" "m" none none⟩

/-! ## Claim C5 -/

/-- C5 counterexample: an unknown operation is rejected, but the record
is not left entirely unchanged — the embedded `getContext` has already
slid `updatedAt` (0 before the call, 50 after it). -/
theorem claim5_counterexample :
    isUnknownOperation (updateContext refContextConfig [("c", ctxStale)] 50 "c"
        (Json.str "bogus") entryA).1 = true
    ∧ (storeGet (updateContext refContextConfig [("c", ctxStale)] 50 "c"
        (Json.str "bogus") entryA).2 "c").map Context.updatedAt = some 50
    ∧ ctxStale.updatedAt = 0
    ∧ (50 : Int) ≠ 0 :=
  ⟨rfl, rfl, rfl, by decide⟩

/-- C5 (amended): an update with an operation other than
append/replace/clear throws the unknown-operation error and leaves
`contents`, `tokenCount` and every other field unchanged except
`updatedAt` and `expiresAt`, which the embedded `getContext` has already
slid forward to the call time before the error is raised. -/
theorem claim5_unknown_op_amended (cfg : ContextConfig) (s : Store) (now : Int)
    (contextId : String) (operation : Json) (content : Entry) (c : Context)
    (hfind : storeGet s contextId = some c)
    (hop : ∀ str, operation = Json.str str →
      str ≠ "append" ∧ str ≠ "replace" ∧ str ≠ "clear") :
    updateContext cfg s now contextId operation content
      = (UpdateResult.unknownOperation "Unknown context operation",
         storeSet s contextId { c with updatedAt := now, expiresAt := now + cfg.ttlMs })
    ∧ storeGet (updateContext cfg s now contextId operation content).2 contextId
      = some { c with updatedAt := now, expiresAt := now + cfg.ttlMs } := by
  have hmain : updateContext cfg s now contextId operation content
      = (UpdateResult.unknownOperation "Unknown context operation",
         storeSet s contextId
           { c with updatedAt := now, expiresAt := now + cfg.ttlMs }) := by
    unfold updateContext
    rw [getContext_some cfg s now contextId c hfind]
    have hnone := applyOperation_unknown operation c.contents content hop
    dsimp only
    rw [hnone]
  refine ⟨hmain, ?_⟩
  rw [hmain]
  exact storeGet_storeSet s contextId _

/-- C5 witness: the amended statement at a concrete unknown operation. -/
theorem claim5_witness :
    updateContext refContextConfig [("c", ctxStale)] 50 "c" (Json.str "bogus") entryA
      = (UpdateResult.unknownOperation "Unknown context operation",
         storeSet [("c", ctxStale)] "c"
           { ctxStale with updatedAt := 50, expiresAt := 50 + refContextConfig.ttlMs })
    ∧ storeGet (updateContext refContextConfig [("c", ctxStale)] 50 "c"
        (Json.str "bogus") entryA).2 "c"
      = some { ctxStale with updatedAt := 50, expiresAt := 50 + refContextConfig.ttlMs } :=
  claim5_unknown_op_amended refContextConfig [("c", ctxStale)] 50 "c" (Json.str "bogus")
    entryA ctxStale rfl
    (fun str hstr => by
      injection hstr with h2
      subst h2
      exact ⟨by decide, by decide, by decide⟩)

/-! ## Claim C6 -/

/-- C6 (code bug): an id that does not resolve to a live record is not
answered with a 404 error envelope. The PUT handler never null-checks the
manager's result, so a missing id yields `200 \x7bstatus: 'success',
context: null\x7d`; and `POST /api/query` with a missing context id makes
`McpModels.query` throw, which the handler's catch converts into a
`500 \x7bstatus: 'error'\x7d` response — never the claimed 404. -/
theorem claim6_put_and_query_not_found :
    (serverUpdateContext refContextConfig [] 0 "missing"
        (some (Json.str "append")) (some entryA)).1 = PutHttpResult.okEnvelope none
    ∧ putEnvelope (serverUpdateContext refContextConfig [] 0 "missing"
        (some (Json.str "append")) (some entryA)).1 = (200, "success")
    ∧ (handleQuery refContextConfig refProviders [] 0 (some "missing")
        (some "hi") none).1 = QueryHttpOutcome.errorResponse
    ∧ queryEnvelope (handleQuery refContextConfig refProviders [] 0 (some "missing")
        (some "hi") none).1 = some (500, "error") :=
  ⟨rfl, rfl, rfl, rfl⟩

/-! ## Claim C7 -/

/-- C7 counterexample: `generate(contextId=null, prompt=null,
modelId='x')` does not raise the validation error — provider resolution
runs first and throws the no-provider error for the unlisted model. -/
theorem claim7_counterexample :
    (generatePrep refContextConfig refProviders [] 0 none none "x").1
      = GenPrep.failed (McpError.noProvider "x")
    ∧ McpError.noProvider "x" ≠ McpError.validation :=
  ⟨rfl, by decide⟩

/-- C7 (amended): a generate call with no prompt and no context always
fails before any network interaction with a provider; the raised error is
the validation error when the model resolves to a provider, and the
no-provider error (raised by the earlier provider-resolution step) when
it does not. -/
theorem claim7_generate_error_order_amended (cfg : ContextConfig)
    (providers : List Provider) (s : Store) (now : Int) (model : String) :
    (generatePrep cfg providers s now none none model).1
      = (match getProviderForModel providers model with
         | Except.ok _ => GenPrep.failed McpError.validation
         | Except.error _ => GenPrep.failed (McpError.noProvider model)) := by
  cases hp : getProviderForModel providers model with
  | error e => simp [generatePrep, lookupContext, hp]
  | ok p => simp [generatePrep, lookupContext, hp]

/-! ## Claim C8 -/

/-- C8: provider resolution is deterministic for every model identifier —
two calls on an equal registry and an equal model id (resolvable or not)
return equal results — and a model id listed in no provider's
`supportedModels` always resolves to the no-provider error. -/
theorem claim8_provider_resolution (providers : List Provider) (modelId : String) :
    (∀ (providers2 : List Provider) (modelId2 : String),
        providers = providers2 → modelId = modelId2 →
        getProviderForModel providers modelId
          = getProviderForModel providers2 modelId2)
    ∧ ((∀ p ∈ providers, modelId ∉ p.supportedModels) →
        getProviderForModel providers modelId
          = Except.error ("No provider found for model " ++ modelId)) := by
  constructor
  · intro providers2 modelId2 h1 h2
    rw [h1, h2]
  · induction providers with
    | nil => intro h; rfl
    | cons p ps ih =>
        intro h
        have hp : modelId ∉ p.supportedModels := h p (List.mem_cons_self p ps)
        have hrest : ∀ q ∈ ps, modelId ∉ q.supportedModels :=
          fun q hq => h q (List.mem_cons_of_mem p hq)
        simp only [getProviderForModel, if_neg hp]
        exact ih hrest

/-- C8 witness: determinism exercised at the resolvable model `gpt-4`
(which resolves to the openai provider, so the conjunct is not vacuous)
and the no-provider error at the unlisted model `x`. -/
theorem claim8_witness :
    getProviderForModel refProviders "gpt-4" = getProviderForModel refProviders "gpt-4"
    ∧ (getProviderForModel refProviders "gpt-4").map Provider.name = Except.ok "openai"
    ∧ getProviderForModel refProviders "x"
        = Except.error ("No provider found for model " ++ "x") :=
  ⟨(claim8_provider_resolution refProviders "gpt-4").1 refProviders "gpt-4" rfl rfl,
   rfl,
   (claim8_provider_resolution refProviders "x").2 (by decide)⟩

/-! ## Claim C9 -/

/-- C9: a PUT body without a truthy operation or a truthy content is
answered with the 400 error envelope, the store is left untouched and the
store manager is never invoked; in particular `clear` without a dummy
content value never reaches the store. -/
theorem claim9_put_body_gate (cfg : ContextConfig) (s : Store) (now : Int)
    (contextId : String) (operation : Option Json) (content : Option Entry)
    (h : truthyOpt operation = false ∨ content = none) :
    serverUpdateContext cfg s now contextId operation content
      = (PutHttpResult.badRequest, s, false)
    ∧ putEnvelope PutHttpResult.badRequest = (400, "error") := by
  refine ⟨?_, rfl⟩
  cases operation with
  | none => cases content <;> rfl
  | some op =>
      cases content with
      | none => rfl
      | some entry =>
          rcases h with h | h
          · have hop : truthyJson op = false := by simpa [truthyOpt] using h
            simp [serverUpdateContext, hop]
          · exact absurd h (by simp)

/-- C9 witness: a `clear` request without content is rejected with 400
and the store manager is not invoked. -/
theorem claim9_witness :
    serverUpdateContext refContextConfig [] 0 "c" (some (Json.str "clear")) none
      = (PutHttpResult.badRequest, [], false)
    ∧ putEnvelope PutHttpResult.badRequest = (400, "error") :=
  claim9_put_body_gate refContextConfig [] 0 "c" (some (Json.str "clear")) none (Or.inr rfl)

/-! ## Claim C10 -/

/-- C10 counterexample: a negative `maxTokens` is truthy in JS, so it is
stored as-is — a context with a negative budget can be created. -/
theorem claim10_counterexample :
    (createContext refContextConfig [] 0 "c" "m" (some (-1)) none).1.maxTokens = -1
    ∧ (-1 : Int) < 0 :=
  ⟨rfl, by decide⟩

/-- C10 (amended): a falsy `maxTokens` (absent, null or 0) falls back to
the configured default 8192, so the stored budget is never zero; a
negative value, however, is truthy and stored unchanged, so negative
budgets remain possible. -/
theorem claim10_default_budget_amended (s : Store) (now : Int) (contextId model : String)
    (maxTokens : Option Int) (contents : Option (List Entry)) :
    ((maxTokens = none ∨ maxTokens = some 0) →
      (createContext refContextConfig s now contextId model maxTokens contents).1.maxTokens
        = 8192)
    ∧ (createContext refContextConfig s now contextId model maxTokens contents).1.maxTokens
        ≠ 0 := by
  constructor
  · rintro (rfl | rfl) <;> rfl
  · cases maxTokens with
    | none =>
        show jsNumOr none refContextConfig.maxTokens ≠ 0
        decide
    | some v =>
        show jsNumOr (some v) refContextConfig.maxTokens ≠ 0
        by_cases hv : v = 0
        · simp [jsNumOr, hv, refContextConfig]
        · simp [jsNumOr, hv]

/-- C10 witness: the amended statement at a concrete falsy input. -/
theorem claim10_witness :
    (createContext refContextConfig [] 0 "c" "m" none none).1.maxTokens = 8192
    ∧ (createContext refContextConfig [] 0 "c" "m" none none).1.maxTokens ≠ 0 :=
  ⟨(claim10_default_budget_amended [] 0 "c" "m" none none).1 (Or.inl rfl),
   (claim10_default_budget_amended [] 0 "c" "m" none none).2⟩

end SapMmpurMcp
